import Mathlib

/-!
Shallow embedding of the `dyn_ord` crate (src/lib.rs): dynamically-typed
equality (`DynEq`) and ordering (`DynOrd`) over type-erased values.

A Rust program using this crate works over some collection of concrete types,
each implementing `Any` (runtime type identity) plus `PartialEq` /
`PartialOrd`.  We model that collection as a `TypeUniv`: a type of type tags
(modelling `TypeId`) with decidable equality, a carrier for each tag, and the
concrete type's native equality (`peq`, modelling `PartialEq::eq`) and partial
comparison (`pcmp`, modelling `PartialOrd::partial_cmp`, named `pcmp` here).
An erased value (`&dyn DynEq` / `&dyn DynOrd`) is a tag together with a value
of its carrier.
-/

structure TypeUniv where
  Tag : Type
  deq : DecidableEq Tag
  carrier : Tag → Type
  peq : (t : Tag) → carrier t → carrier t → Bool
  pcmp : (t : Tag) → carrier t → carrier t → Option Ordering

/-- A type-erased value: a runtime type tag paired with a value of that
concrete type.  Models a `dyn DynEq` / `dyn DynOrd` trait object. -/
def ErasedVal (U : TypeUniv) : Type := Σ t : U.Tag, U.carrier t

/-- Models `other.as_any().downcast_ref::<T>()`: compare runtime type
identities; on a match, reinterpret the value at the requested type. -/
def downcast (U : TypeUniv) (x : ErasedVal U) (t : U.Tag) : Option (U.carrier t) :=
  match U.deq x.1 t with
  | Decidable.isTrue h => some (h ▸ x.2)
  | Decidable.isFalse _ => none

/-- Models `DynEqHelper::static_eq` (src/lib.rs lines 65-73): `self` is a
concrete value of type `t`; downcast `other` to `t`; on success return
`self == other` via the concrete equality, else `false`. -/
def static_eq (U : TypeUniv) (t : U.Tag) (self : U.carrier t)
    (other : ErasedVal U) : Bool :=
  match downcast U other t with
  | some o => U.peq t self o
  | none => false

/-- Models `DynEq::dyn_eq` (src/lib.rs lines 59-61): `other.static_eq(self)`,
where `self` (of concrete type `t`) is passed, erased, to the other side's
helper. -/
def dyn_eq (U : TypeUniv) (t : U.Tag) (self : U.carrier t)
    (other : ErasedVal U) : Bool :=
  static_eq U other.1 other.2 ⟨t, self⟩

/-- Models `impl PartialEq for dyn DynEq` (src/lib.rs lines 75-79):
`self.dyn_eq(other.as_dyn_eq_helper())`. -/
def dynEq (U : TypeUniv) (x y : ErasedVal U) : Bool :=
  dyn_eq U x.1 x.2 y

/-- Models `DynOrdHelper::static_ord` (src/lib.rs lines 128-136): downcast
`other` to `self`'s concrete type; on success return
`other.partial_cmp(self)` — the source swaps the operands back ("note the
reversed order") — else `None`. -/
def static_ord (U : TypeUniv) (t : U.Tag) (self : U.carrier t)
    (other : ErasedVal U) : Option Ordering :=
  match downcast U other t with
  | some o => U.pcmp t o self
  | none => none

/-- Models `DynOrd::dyn_ord` (src/lib.rs lines 122-124):
`other.static_ord(self)`. -/
def dyn_ord (U : TypeUniv) (t : U.Tag) (self : U.carrier t)
    (other : ErasedVal U) : Option Ordering :=
  static_ord U other.1 other.2 ⟨t, self⟩

/-- Models `impl PartialOrd for dyn DynOrd` (src/lib.rs lines 144-148):
`self.dyn_ord(other.as_dyn_ord_helper())`. -/
def dynPcmp (U : TypeUniv) (x y : ErasedVal U) : Option Ordering :=
  dyn_ord U x.1 x.2 y

/-- Models `impl PartialEq for dyn DynOrd` (src/lib.rs lines 138-142):
`self.partial_cmp(other) == Some(Ordering::Equal)`. -/
def dynOrdEq (U : TypeUniv) (x y : ErasedVal U) : Bool :=
  dynPcmp U x y == some Ordering.eq

theorem downcast_same (U : TypeUniv) (t : U.Tag) (v : U.carrier t) :
    downcast U ⟨t, v⟩ t = some v := by
  unfold downcast
  split
  · rfl
  · rename_i h heq
    exact absurd rfl h

theorem downcast_ne (U : TypeUniv) (x : ErasedVal U) (t : U.Tag)
    (h : x.1 ≠ t) : downcast U x t = none := by
  unfold downcast
  split
  · rename_i h' heq
    exact absurd h' h
  · rfl

theorem dynEq_same (U : TypeUniv) (t : U.Tag) (a b : U.carrier t) :
    dynEq U ⟨t, a⟩ ⟨t, b⟩ = U.peq t b a := by
  simp [dynEq, dyn_eq, static_eq, downcast_same]

theorem dynEq_ne (U : TypeUniv) (x y : ErasedVal U) (h : x.1 ≠ y.1) :
    dynEq U x y = false := by
  simp [dynEq, dyn_eq, static_eq, downcast_ne U x y.1 h]

theorem dynPcmp_same (U : TypeUniv) (t : U.Tag) (a b : U.carrier t) :
    dynPcmp U ⟨t, a⟩ ⟨t, b⟩ = U.pcmp t a b := by
  simp [dynPcmp, dyn_ord, static_ord, downcast_same]

theorem dynPcmp_ne (U : TypeUniv) (x y : ErasedVal U) (h : x.1 ≠ y.1) :
    dynPcmp U x y = none := by
  simp [dynPcmp, dyn_ord, static_ord, downcast_ne U x y.1 h]

/-!
Concrete universes used to instantiate the theorems.

`DemoU` mirrors the crate's doc examples: an integer type (`i32`, modelled as
`Int` with its total order) and a textual type (`String`, modelled as its
byte sequence with Rust's lexicographic byte order).
-/

/-- Lexicographic comparison of byte sequences, as `Ord for str` in Rust. -/
def lexCmp : List Nat → List Nat → Ordering
  | [], [] => Ordering.eq
  | [], _ :: _ => Ordering.lt
  | _ :: _, [] => Ordering.gt
  | a :: as, b :: bs =>
    match compare a b with
    | Ordering.eq => lexCmp as bs
    | o => o

/-- Tags of the two concrete types in the doc-example universe. -/
inductive DTag
  | int
  | str
deriving DecidableEq

/-- Carriers of the doc-example universe. -/
@[reducible] def DCar : DTag → Type
  | DTag.int => Int
  | DTag.str => List Nat

/-- The doc-example universe: `i32` and `String`, with their native
(total, law-abiding) equality and ordering. -/
@[reducible] def DemoU : TypeUniv where
  Tag := DTag
  deq := inferInstance
  carrier := DCar
  peq := fun t =>
    match t with
    | DTag.int => fun a b => a == b
    | DTag.str => fun a b => a == b
  pcmp := fun t =>
    match t with
    | DTag.int => fun a b => some (compare a b)
    | DTag.str => fun a b => some (lexCmp a b)

/-- The erased integer `42` of the doc examples. -/
def int42 : ErasedVal DemoU := ⟨DTag.int, (42 : Int)⟩

/-- The erased string `"qux"` of the doc examples (its UTF-8 bytes). -/
def strQux : ErasedVal DemoU := ⟨DTag.str, [113, 117, 120]⟩

/-- The erased string `"baz"` of the doc examples (its UTF-8 bytes). -/
def strBaz : ErasedVal DemoU := ⟨DTag.str, [98, 97, 122]⟩

/-- A one-type universe over `Bool` with its native equality and total order;
small enough that the `PartialEq`/`PartialOrd` laws are themselves decidable,
which the witnesses use. -/
@[reducible] def FinU : TypeUniv where
  Tag := Unit
  deq := inferInstance
  carrier := fun _ => Bool
  peq := fun _ a b => a == b
  pcmp := fun _ a b => some (compare a b)

/-- A universe modelling `f64` at `NAN`: a legal `PartialEq`/`PartialOrd`
implementation (symmetric, transitive, consistent) that is not reflexive —
`NAN == NAN` is `false` and `NAN.partial_cmp(&NAN)` is `None` in Rust. -/
@[reducible] def NanU : TypeUniv where
  Tag := Unit
  deq := inferInstance
  carrier := fun _ => Unit
  peq := fun _ _ _ => false
  pcmp := fun _ _ _ => none

/-- A universe whose single concrete type has deliberately disagreeing
`PartialEq` (never equal) and `PartialOrd` (always `Some(Equal)`)
implementations, to observe which of the two `dyn DynOrd`'s `==` invokes. -/
@[reducible] def MixU : TypeUniv where
  Tag := Unit
  deq := inferInstance
  carrier := fun _ => Bool
  peq := fun _ _ _ => false
  pcmp := fun _ _ _ => some Ordering.eq

/-!
Exception-valued re-reading of the same dispatch code, for the totality
claim: every sub-operation that can fail in Rust — here only the downcast,
whose `None` outcome the source handles with `if let` — is threaded through
`Except`, and a panic or unhandled failure would surface as `Except.error`.
The source has no such path, and the theorems show the result is always
`Except.ok`.
-/

/-- `static_eq` with its fallible sub-operation made explicit: the failed
downcast is handled into the ordinary `false` outcome, not an error. -/
def static_eqE (U : TypeUniv) (t : U.Tag) (self : U.carrier t)
    (other : ErasedVal U) : Except String Bool :=
  match downcast U other t with
  | some o => Except.ok (U.peq t self o)
  | none => Except.ok false

/-- `dyn_eq`, exception-valued. -/
def dyn_eqE (U : TypeUniv) (t : U.Tag) (self : U.carrier t)
    (other : ErasedVal U) : Except String Bool :=
  static_eqE U other.1 other.2 ⟨t, self⟩

/-- `==` on `dyn DynEq`, exception-valued. -/
def dynEqE (U : TypeUniv) (x y : ErasedVal U) : Except String Bool :=
  dyn_eqE U x.1 x.2 y

/-- `static_ord` with its fallible sub-operation made explicit: the failed
downcast is handled into the ordinary `None` outcome, not an error. -/
def static_ordE (U : TypeUniv) (t : U.Tag) (self : U.carrier t)
    (other : ErasedVal U) : Except String (Option Ordering) :=
  match downcast U other t with
  | some o => Except.ok (U.pcmp t o self)
  | none => Except.ok none

/-- `dyn_ord`, exception-valued. -/
def dyn_ordE (U : TypeUniv) (t : U.Tag) (self : U.carrier t)
    (other : ErasedVal U) : Except String (Option Ordering) :=
  static_ordE U other.1 other.2 ⟨t, self⟩

/-- `partial_cmp` on `dyn DynOrd`, exception-valued. -/
def dynPcmpE (U : TypeUniv) (x y : ErasedVal U) : Except String (Option Ordering) :=
  dyn_ordE U x.1 x.2 y

/-!
The claims.  Quantification over "every concrete type" is quantification over
an arbitrary `TypeUniv`.  Where a claim's truth rests on a law that Rust's
`PartialEq` / `PartialOrd` trait contracts demand of the concrete type
(symmetry of `eq`; the `lt`/`gt` duality of `partial_cmp`), that law appears
as an explicit hypothesis: the erasure layer inherits it from the concrete
type, it does not enforce it.
-/

/-- C1: for two erased values of the same concrete type `t`,
`partial_cmp` on `dyn DynOrd` returns exactly the concrete type's native
`partial_cmp` applied to the operands in the same, non-reversed logical
order: the dispatch hop (`dyn_ord` hands `self` to the other side's
`static_ord`) swaps the operands once, and `static_ord` swaps them back
(`other.partial_cmp(self)`), so the result is never the inverse ordering. -/
theorem same_type_ord_delegates (U : TypeUniv) (t : U.Tag) (a b : U.carrier t) :
    dynPcmp U ⟨t, a⟩ ⟨t, b⟩ = U.pcmp t a b :=
  dynPcmp_same U t a b

/-- C2: for two erased values whose concrete types differ, `==` on
`dyn DynEq` is `false`, `partial_cmp` on `dyn DynOrd` is `None`, and `==` on
`dyn DynOrd` is `false`, whatever the wrapped values' data: the failed
downcast decides the outcome before any value is inspected. -/
theorem cross_type_unequal_incomparable (U : TypeUniv) (x y : ErasedVal U)
    (h : x.1 ≠ y.1) :
    dynEq U x y = false ∧ dynPcmp U x y = none ∧ dynOrdEq U x y = false :=
  ⟨dynEq_ne U x y h, dynPcmp_ne U x y h, by simp [dynOrdEq, dynPcmp_ne U x y h]⟩

theorem cross_type_unequal_incomparable_witness :
    int42.1 ≠ strQux.1 ∧
    (dynEq DemoU int42 strQux = false ∧ dynPcmp DemoU int42 strQux = none ∧
      dynOrdEq DemoU int42 strQux = false) :=
  ⟨by decide, cross_type_unequal_incomparable DemoU int42 strQux (by decide)⟩

/-- C3: for two erased values of the same concrete type `t`, `==` on
`dyn DynEq` returns exactly the concrete type's native equality on the two
values.  The dispatch computes `self == other` inside the *other* operand's
`static_eq`, i.e. the concrete equality with the operands swapped, so the
"in that order" part of the claim rests on the symmetry of the concrete
equality — the law Rust's `PartialEq` contract demands of every implementer,
here the explicit hypothesis `hsym`. -/
theorem same_type_eq_delegates (U : TypeUniv) (t : U.Tag) (a b : U.carrier t)
    (hsym : ∀ x y : U.carrier t, U.peq t x y = U.peq t y x) :
    dynEq U ⟨t, a⟩ ⟨t, b⟩ = U.peq t a b := by
  rw [dynEq_same]
  exact hsym b a

theorem same_type_eq_delegates_witness :
    (∀ x y : Bool, FinU.peq () x y = FinU.peq () y x) ∧
    dynEq FinU ⟨(), true⟩ ⟨(), false⟩ = FinU.peq () true false :=
  ⟨by decide, same_type_eq_delegates FinU () true false (by decide)⟩

/-- C4: on `dyn DynOrd`, `==` returns `true` exactly when `partial_cmp`
returns `Some(Equal)` (the former is defined from the latter), and in
particular an incomparable pair (`partial_cmp = None`) is never equal. -/
theorem ord_eq_iff_cmp_eq (U : TypeUniv) (x y : ErasedVal U) :
    (dynOrdEq U x y = true ↔ dynPcmp U x y = some Ordering.eq) ∧
    (dynPcmp U x y = none → dynOrdEq U x y = false) := by
  constructor
  · unfold dynOrdEq
    rcases hc : dynPcmp U x y with _ | o
    · decide
    · cases o <;> decide
  · intro h
    simp [dynOrdEq, h]

theorem ord_eq_iff_cmp_eq_witness :
    dynPcmp DemoU strQux int42 = none ∧ dynOrdEq DemoU strQux int42 = false :=
  ⟨by decide, (ord_eq_iff_cmp_eq DemoU strQux int42).2 (by decide)⟩

/-- C5: the erasure layer introduces no dispatch-order asymmetry: whenever
the concrete types' `partial_cmp` satisfies the `lt`/`gt` duality that
Rust's `PartialOrd` contract demands (`hdual`), then for any two erased
values, `compare(x, y) = Some(Less)` gives `compare(y, x) = Some(Greater)`
and vice versa — across types both directions are `None`, and within a type
the duality is passed through unharmed. -/
theorem dyn_ord_antisymm (U : TypeUniv)
    (hdual : ∀ (t : U.Tag) (a b : U.carrier t),
      (U.pcmp t a b = some Ordering.lt ↔ U.pcmp t b a = some Ordering.gt))
    (x y : ErasedVal U) :
    (dynPcmp U x y = some Ordering.lt → dynPcmp U y x = some Ordering.gt) ∧
    (dynPcmp U x y = some Ordering.gt → dynPcmp U y x = some Ordering.lt) := by
  obtain ⟨tx, vx⟩ := x
  obtain ⟨ty, vy⟩ := y
  cases U.deq tx ty with
  | isTrue h =>
    subst h
    rw [dynPcmp_same, dynPcmp_same]
    exact ⟨fun hl => (hdual tx vx vy).mp hl, fun hg => (hdual tx vy vx).mpr hg⟩
  | isFalse h =>
    rw [dynPcmp_ne U _ _ h, dynPcmp_ne U _ _ (Ne.symm h)]
    simp

theorem dyn_ord_antisymm_witness :
    (∀ (t : Unit) (a b : Bool),
      (FinU.pcmp t a b = some Ordering.lt ↔ FinU.pcmp t b a = some Ordering.gt)) ∧
    dynPcmp FinU ⟨(), false⟩ ⟨(), true⟩ = some Ordering.lt ∧
    dynPcmp FinU ⟨(), true⟩ ⟨(), false⟩ = some Ordering.gt :=
  ⟨by decide, by decide,
    (dyn_ord_antisymm FinU (by decide) ⟨(), false⟩ ⟨(), true⟩).1 (by decide)⟩

/-- C6 (counterexample): `equal(x, x)` is not `true` for every erased value.
`NanU` models a concrete type whose `PartialEq` is lawful (symmetric,
transitive) but not reflexive — exactly `f64`, whose `NAN == NAN` is `false`
in Rust; Rust's `PartialEq` contract does not demand reflexivity (that is
`Eq`), and `f64: PartialEq + PartialOrd + Any` may be erased into
`dyn DynEq`.  Comparing the erased `NAN`-like value with itself downcasts
successfully and returns the concrete `false`. -/
theorem dyn_eq_refl_cex :
    ¬ (dynEq NanU ⟨(), ()⟩ ⟨(), ()⟩ = true) := by decide

/-- C6 (amended): reflexivity holds for every erased value whose concrete
type's native equality is reflexive at that value — in particular for every
concrete type implementing `Eq`, though not for ones like `f64` at `NAN`:
comparing such an erased value against itself (same identity, same concrete
type) downcasts successfully and yields the concrete `true`. -/
theorem dyn_eq_refl_of_refl (U : TypeUniv) (t : U.Tag) (v : U.carrier t)
    (h : U.peq t v v = true) :
    dynEq U ⟨t, v⟩ ⟨t, v⟩ = true := by
  rw [dynEq_same]
  exact h

theorem dyn_eq_refl_of_refl_witness :
    DemoU.peq DTag.int (42 : Int) (42 : Int) = true ∧
    dynEq DemoU ⟨DTag.int, (42 : Int)⟩ ⟨DTag.int, (42 : Int)⟩ = true :=
  ⟨by decide, dyn_eq_refl_of_refl DemoU DTag.int (42 : Int) (by decide)⟩

/-- C7: `equal(x, y)` and `equal(y, x)` agree for any two erased values, no
matter which operand the equality is invoked on: across types both are
`false`; within a type the two call sites compute the concrete equality with
opposite operand orders, which agree by the symmetry that Rust's `PartialEq`
contract demands of the concrete type (the explicit hypothesis `hsym`). -/
theorem dyn_eq_symm (U : TypeUniv)
    (hsym : ∀ (t : U.Tag) (a b : U.carrier t), U.peq t a b = U.peq t b a)
    (x y : ErasedVal U) :
    dynEq U x y = dynEq U y x := by
  obtain ⟨tx, vx⟩ := x
  obtain ⟨ty, vy⟩ := y
  cases U.deq tx ty with
  | isTrue h =>
    subst h
    rw [dynEq_same, dynEq_same]
    exact hsym tx vy vx
  | isFalse h =>
    rw [dynEq_ne U _ _ h, dynEq_ne U _ _ (Ne.symm h)]

theorem dyn_eq_symm_witness :
    (∀ (t : Unit) (a b : Bool), FinU.peq t a b = FinU.peq t b a) ∧
    dynEq FinU ⟨(), true⟩ ⟨(), false⟩ = dynEq FinU ⟨(), false⟩ ⟨(), true⟩ :=
  ⟨by decide, dyn_eq_symm FinU (by decide) ⟨(), true⟩ ⟨(), false⟩⟩

/-- C8: both operations are total with zero fallible paths.  In the
exception-valued reading of the dispatch — where the only fallible
sub-operation, the downcast, is explicit and an unhandled failure or panic
would be an `Except.error` — both operations always return `Except.ok` of
the pure result, and on a type mismatch that result is the normal `false` /
`None` outcome, not an error. -/
theorem dyn_total_no_fallible_path (U : TypeUniv) (x y : ErasedVal U) :
    dynEqE U x y = Except.ok (dynEq U x y) ∧
    dynPcmpE U x y = Except.ok (dynPcmp U x y) ∧
    (x.1 ≠ y.1 →
      dynEqE U x y = Except.ok false ∧ dynPcmpE U x y = Except.ok none) := by
  have he : dynEqE U x y = Except.ok (dynEq U x y) := by
    unfold dynEqE dyn_eqE static_eqE dynEq dyn_eq static_eq
    cases downcast U ⟨x.1, x.2⟩ y.1 <;> rfl
  have hp : dynPcmpE U x y = Except.ok (dynPcmp U x y) := by
    unfold dynPcmpE dyn_ordE static_ordE dynPcmp dyn_ord static_ord
    cases downcast U ⟨x.1, x.2⟩ y.1 <;> rfl
  refine ⟨he, hp, fun hne => ⟨?_, ?_⟩⟩
  · rw [he, dynEq_ne U x y hne]
  · rw [hp, dynPcmp_ne U x y hne]

theorem dyn_total_no_fallible_path_witness :
    int42.1 ≠ strBaz.1 ∧
    (dynEqE DemoU int42 strBaz = Except.ok false ∧
      dynPcmpE DemoU int42 strBaz = Except.ok none) :=
  ⟨by decide, (dyn_total_no_fallible_path DemoU int42 strBaz).2.2 (by decide)⟩

/-- C9: the doc-example values — the erased integer `42` and the erased
strings `"qux"` and `"baz"` — compare under `dyn DynOrd` exactly as the
crate's documentation asserts: `"qux"` against `"baz"` is `Some(Greater)`,
`"baz"` against `"qux"` is `Some(Less)`, `"qux"` against itself is
`Some(Equal)`, and `42` against `"qux"` is `None`. -/
theorem demo_doc_values :
    dynPcmp DemoU strQux strBaz = some Ordering.gt ∧
    dynPcmp DemoU strBaz strQux = some Ordering.lt ∧
    dynPcmp DemoU strQux strQux = some Ordering.eq ∧
    dynPcmp DemoU int42 strQux = none :=
  ⟨by decide, by decide, by decide, by decide⟩

/-- C10: `==` on `dyn DynOrd` is defined solely as
`partial_cmp(x, y) == Some(Equal)` and never invokes the concrete type's own
`PartialEq`: it equals that comparison for every universe of concrete types,
and on `MixU` — whose single type's `PartialEq` (never equal) and
`PartialOrd` (always `Some(Equal)`) disagree — `==` on `dyn DynOrd` follows
the ordering and answers `true` on the very pair on which `==` on
`dyn DynEq` (which does invoke the concrete `PartialEq`) answers `false`. -/
theorem ord_eq_ignores_concrete_eq :
    (∀ (U : TypeUniv) (x y : ErasedVal U),
      dynOrdEq U x y = (dynPcmp U x y == some Ordering.eq)) ∧
    dynOrdEq MixU ⟨(), true⟩ ⟨(), true⟩ = true ∧
    dynEq MixU ⟨(), true⟩ ⟨(), true⟩ = false :=
  ⟨fun _ _ _ => rfl, by decide, by decide⟩
